import Mathlib

/-!
Shallow embedding of the SPSA chess-engine tuner (`tuner/spsa_tuner.py`) and
the perft test harness (`tests/perft_test.py`), with theorems checking the
natural-language specification against the code.

Python floats are modelled as exact rationals (`ℚ`); the logistic transform
and the SPSA decay coefficients, which use real exponentiation, are modelled
over `ℝ` with `Real.rpow`.  External subprocess invocations are modelled by
explicit outcome types (timeout / exception / captured output), and the
line-oriented output that the Python code string-scans is modelled at token
level.
-/

namespace Spsa

/-- Embeds `TunableParam` (spsa_tuner.py, lines 33-54): one tunable engine
parameter with current value, inclusive bounds, perturbation magnitude
`c_end` and step magnitude `a_end`. -/
structure TunableParam where
  name : String
  value : ℚ
  min_val : ℚ
  max_val : ℚ
  c_end : ℚ
  a_end : ℚ
deriving DecidableEq, Repr

/-- Embeds `TunableParam.__post_init__`: when `c_end`/`a_end` are left at 0
they are auto-calculated as `max 1 (2% of range)` and `10%` of `c_end`.
`mkParam name value min max` builds the parameter exactly as the Python
constructor with default `c_end = a_end = 0` does. -/
def mkParam (name : String) (value min_val max_val : ℚ) : TunableParam :=
  let c := max 1 ((max_val - min_val) * (2 / 100))
  { name := name, value := value, min_val := min_val, max_val := max_val,
    c_end := c, a_end := c * (1 / 10) }

/-- Embeds `TunableParam.clamp` (lines 52-54):
`max(self.min_val, min(self.max_val, val))`. -/
def TunableParam.clamp (p : TunableParam) (val : ℚ) : ℚ :=
  max p.min_val (min p.max_val val)

/-- Embeds `DEFAULT_PARAMS` (lines 58-103): the default parameter list,
each entry built by the dataclass constructor with auto-calculated
`c_end`/`a_end`. -/
def DEFAULT_PARAMS : List TunableParam :=
  [ mkParam "PawnValueMG" 100 70 130,
    mkParam "KnightValueMG" 320 280 360,
    mkParam "BishopValueMG" 330 290 370,
    mkParam "RookValueMG" 500 450 550,
    mkParam "QueenValueMG" 950 850 1050,
    mkParam "PawnValueEG" 130 100 160,
    mkParam "KnightValueEG" 340 300 380,
    mkParam "BishopValueEG" 350 310 390,
    mkParam "RookValueEG" 550 500 600,
    mkParam "QueenValueEG" 1000 900 1100,
    mkParam "BishopPairBonusMG" 30 0 60,
    mkParam "RookOpenFileBonusMG" 25 0 50,
    mkParam "RookSemiOpenFileBonusMG" 11 0 30,
    mkParam "RookOnSeventhBonusMG" 20 0 50,
    mkParam "KnightOutpostBonusMG" 25 0 50,
    mkParam "BishopPairBonusEG" 50 20 80,
    mkParam "RookOpenFileBonusEG" 15 0 40,
    mkParam "RookSemiOpenFileBonusEG" 3 0 20,
    mkParam "RookOnSeventhBonusEG" 30 0 60,
    mkParam "KnightOutpostBonusEG" 15 0 40,
    mkParam "IsolatedPawnPenaltyMG" (-45) (-70) (-10),
    mkParam "DoubledPawnPenaltyMG" (-16) (-40) 0,
    mkParam "BackwardPawnPenaltyMG" (-10) (-30) 0,
    mkParam "ConnectedPawnBonusMG" 5 0 20,
    mkParam "PhalanxBonusMG" 10 0 25,
    mkParam "IsolatedPawnPenaltyEG" (-20) (-50) 0,
    mkParam "DoubledPawnPenaltyEG" (-21) (-50) 0,
    mkParam "BackwardPawnPenaltyEG" (-15) (-35) 0,
    mkParam "ConnectedPawnBonusEG" 2 0 15,
    mkParam "PhalanxBonusEG" 8 0 20,
    mkParam "KingSafetyWeight" 83 50 150 ]

/-- Embeds the gradient expression of `SPSATuner.iterate` (line 389):
`(score_plus - score_minus) / (2 * c_k * param.c_end * delta[i])`. -/
def spsa_gradient (ck c_end : ℚ) (δ : ℤ) (score_plus score_minus : ℚ) : ℚ :=
  (score_plus - score_minus) / (2 * ck * c_end * δ)

/-- Embeds the step expression of `SPSATuner.iterate` (line 390):
`a_k * param.a_end * gradient`. -/
def spsa_step (ak ck : ℚ) (p : TunableParam) (δ : ℤ) (score_plus score_minus : ℚ) : ℚ :=
  ak * p.a_end * spsa_gradient ck p.c_end δ score_plus score_minus

/-- Embeds the per-parameter update of `SPSATuner.iterate` (lines 387-391):
when `delta[i] != 0`, `param.value = param.clamp(param.value + step)`;
otherwise the parameter is left untouched. -/
def update_param (p : TunableParam) (ak ck : ℚ) (δ : ℤ)
    (score_plus score_minus : ℚ) : TunableParam :=
  if δ ≠ 0 then
    { p with value := p.clamp (p.value + spsa_step ak ck p δ score_plus score_minus) }
  else p

/-- Embeds the whole update loop of `SPSATuner.iterate` (lines 387-391) over
the parameter list and the perturbation sign vector. -/
def iterate_update (ps : List TunableParam) (ak ck : ℚ) (δs : List ℤ)
    (score_plus score_minus : ℚ) : List TunableParam :=
  List.zipWith (fun p δ => update_param p ak ck δ score_plus score_minus) ps δs

/-- Embeds the perturbed candidate value `params_plus[param.name]` of
`SPSATuner.iterate` (lines 375-377):
`param.clamp(param.value + c_k * param.c_end * delta[i])`. -/
def perturb_plus (p : TunableParam) (ck : ℚ) (δ : ℤ) : ℚ :=
  p.clamp (p.value + ck * p.c_end * δ)

/-- Embeds the perturbed candidate value `params_minus[param.name]` of
`SPSATuner.iterate` (lines 375-378):
`param.clamp(param.value - c_k * param.c_end * delta[i])`. -/
def perturb_minus (p : TunableParam) (ck : ℚ) (δ : ℤ) : ℚ :=
  p.clamp (p.value - ck * p.c_end * δ)

/-! ### Match-based score estimator (`SPSATuner._run_games`, lines 222-281) -/

/-- Embeds the `timeout=3600` argument of the `subprocess.run` call in
`SPSATuner._run_games` (line 250): the hard wall-clock bound, in seconds,
on one cutechess match batch. -/
def run_games_timeout_seconds : ℕ := 3600

/-- Embeds the `timeout=15` argument of the `subprocess.run` call in
`get_eval` inside `SPSATuner._run_games_simple` (line 310): the per-query
wall-clock bound in seconds. -/
def eval_query_timeout_seconds : ℕ := 15

/-- Outcome of the external cutechess invocation in `SPSATuner._run_games`:
either `subprocess.TimeoutExpired`, some other exception (`except Exception`,
covering e.g. a launch failure or a malformed count in the score line), or
captured stdout.  The stdout is abstracted to the result of the scan for a
`Score of Plus vs Minus` line: `none` when no such line occurs (the counters
keep their initial 0 values), `some (wins_plus, wins_minus, draws)` when the
first such line parses to those counts. -/
inductive MatchOutcome where
  | timeout : MatchOutcome
  | exc : MatchOutcome
  | output : Option (ℕ × ℕ × ℕ) → MatchOutcome
deriving DecidableEq, Repr

/-- Embeds `SPSATuner._run_games` (lines 222-281): parse the score line into
`(wins_plus, wins_minus, draws)` (all three stay 0 when the line is absent),
return `(0.5, 0.5)` when the total is 0, on timeout, or on any exception;
otherwise `((wins_plus + 0.5*draws)/total, (wins_minus + 0.5*draws)/total)`. -/
def run_games (o : MatchOutcome) : ℚ × ℚ :=
  match o with
  | .timeout => (1/2, 1/2)
  | .exc => (1/2, 1/2)
  | .output scoreLine =>
    let wins_plus : ℕ := (scoreLine.getD (0, 0, 0)).1
    let wins_minus : ℕ := (scoreLine.getD (0, 0, 0)).2.1
    let draws : ℕ := (scoreLine.getD (0, 0, 0)).2.2
    let total : ℕ := wins_plus + wins_minus + draws
    if total = 0 then (1/2, 1/2)
    else (((wins_plus : ℚ) + draws * (1/2)) / total,
          ((wins_minus : ℚ) + draws * (1/2)) / total)

/-! ### Evaluation-based score estimator (`SPSATuner._run_games_simple`,
lines 283-350) -/

/-- One line of engine output as seen by the score scan of `get_eval`
(lines 314-324): a line carrying `score cp <n>`, a line carrying
`score mate <n>`, or any other line. -/
inductive EvalLine where
  | cp : ℤ → EvalLine
  | mate : ℤ → EvalLine
  | other : EvalLine
deriving DecidableEq, Repr

/-- Embeds the mate branch of `get_eval` (line 324):
`return 10000 if mate > 0 else -10000`. -/
def mate_eval (mate : ℤ) : ℤ :=
  if mate > 0 then 10000 else -10000

/-- Embeds the scan loop of `get_eval` (lines 314-325) over the (already
reversed) stdout lines: the first line carrying a score determines the
result; if no line carries one, the function falls through to `return 0`. -/
def scan_eval_lines : List EvalLine → ℤ
  | [] => 0
  | .cp n :: _ => n
  | .mate n :: _ => mate_eval n
  | .other :: rest => scan_eval_lines rest

/-- Outcome of the engine invocation in `get_eval`: a timeout or any other
exception (both swallowed by the bare `except` on line 326), or captured
stdout as a list of lines in print order. -/
inductive QueryOutcome where
  | timeout : QueryOutcome
  | exc : QueryOutcome
  | output : List EvalLine → QueryOutcome
deriving DecidableEq, Repr

/-- Embeds `get_eval` (lines 295-327): scan the stdout lines in reverse for
the last reported score; return 0 when none is found, on timeout, or on any
exception. -/
def get_eval (o : QueryOutcome) : ℤ :=
  match o with
  | .timeout => 0
  | .exc => 0
  | .output lines => scan_eval_lines lines.reverse

/-- Embeds the per-position signed difference of `SPSATuner._run_games_simple`
(lines 333-338): `eval_plus - eval_minus` for one sampled position, given the
engine-query outcomes for the plus and the minus configuration. -/
def pos_diff (q : QueryOutcome × QueryOutcome) : ℤ :=
  get_eval q.1 - get_eval q.2

/-- Embeds the accumulation loop of `SPSATuner._run_games_simple`
(lines 330-340): `total_diff` summed over all sampled positions. -/
def total_diff (qs : List (QueryOutcome × QueryOutcome)) : ℤ :=
  (qs.map pos_diff).sum

/-- Embeds line 343 of `SPSATuner._run_games_simple`:
`avg_diff = total_diff / max(1, positions_tested)`, where `positions_tested`
is the number of sampled positions (every position counts, failed queries
included). -/
def avg_diff (qs : List (QueryOutcome × QueryOutcome)) : ℚ :=
  (total_diff qs : ℚ) / (max 1 qs.length : ℕ)

/-- Embeds line 347 of `SPSATuner._run_games_simple`:
`score_plus = 1 / (1 + 10 ** (-avg_diff / 100))`. -/
noncomputable def logistic_score (avg : ℝ) : ℝ :=
  1 / (1 + (10 : ℝ) ^ (-avg / 100))

/-- Embeds `SPSATuner._run_games_simple` (lines 283-350) as a function of the
engine-query outcomes of the sampled positions:
`(score_plus, 1 - score_plus)` with `score_plus` the logistic transform of
the average evaluation difference. -/
noncomputable def run_games_simple (qs : List (QueryOutcome × QueryOutcome)) : ℝ × ℝ :=
  let score_plus := logistic_score ((avg_diff qs : ℚ) : ℝ)
  (score_plus, 1 - score_plus)

/-- A query outcome from which `get_eval` can extract no score: a timeout,
an exception, or output none of whose lines carries a score. -/
def query_failed : QueryOutcome → Bool
  | .timeout => true
  | .exc => true
  | .output lines => lines.all (fun l => l matches .other)

/-! ### SPSA coefficient schedule (`SPSATuner._get_spsa_coefficients`,
lines 203-209, with the hyperparameters of `__init__`, lines 144-147) -/

/-- Embeds `self.A = 10` (line 145): the stability constant. -/
def spsa_A : ℕ := 10

/-- Embeds `self.alpha = 0.602` (line 146): the step-size decay exponent. -/
noncomputable def spsa_alpha : ℝ := 0.602

/-- Embeds `self.gamma = 0.101` (line 147): the perturbation decay
exponent. -/
noncomputable def spsa_gamma : ℝ := 0.101

/-- Embeds the `a_k` computation of `SPSATuner._get_spsa_coefficients`
(line 207): `a_k = 1.0 / ((self.A + k + 1) ** self.alpha)`. -/
noncomputable def spsa_ak (k : ℕ) : ℝ :=
  1 / Real.rpow ((spsa_A : ℝ) + k + 1) spsa_alpha

/-- Embeds the `c_k` computation of `SPSATuner._get_spsa_coefficients`
(line 208): `c_k = 1.0 / ((k + 1) ** self.gamma)`. -/
noncomputable def spsa_ck (k : ℕ) : ℝ :=
  1 / Real.rpow ((k : ℝ) + 1) spsa_gamma

/-! ### Best tracking (`SPSATuner.__init__` lines 152-154 and
`SPSATuner.iterate` lines 396-401) -/

/-- The best-tracking state of the tuner: `best_score`, `best_iteration` and
the `best_params` snapshot (name → value). -/
structure BestState where
  best_score : ℚ
  best_iteration : ℕ
  best_params : List (String × ℚ)
deriving DecidableEq, Repr

/-- Embeds the initialisation of best tracking in `SPSATuner.__init__`
(lines 152-154): `best_score = 0.5`, `best_iteration = 0`, `best_params`
snapshots the construction-time parameter values. -/
def init_best (params : List TunableParam) : BestState :=
  { best_score := 1/2, best_iteration := 0,
    best_params := params.map (fun p => (p.name, p.value)) }

/-- Embeds the best-tracking step of `SPSATuner.iterate` (lines 396-401):
replace `best_score`, `best_params` and `best_iteration` exactly when
`score_plus > best_score`. -/
def update_best (s : BestState) (k : ℕ) (score_plus : ℚ)
    (current_params : List (String × ℚ)) : BestState :=
  if score_plus > s.best_score then
    { best_score := score_plus, best_iteration := k, best_params := current_params }
  else s

/-- Folds `update_best` over a run's iteration results (score and
post-update snapshot per iteration, in iteration order, iterations numbered
from 1 as `self.iteration` is), starting from the constructor state. -/
def run_best (params : List TunableParam)
    (results : List (ℚ × List (String × ℚ))) : BestState :=
  (results.foldl
    (fun acc r => (update_best acc.1 (acc.2 + 1) r.1 r.2, acc.2 + 1))
    (init_best params, 0)).1

/-! ### Persisted session artifact (`SPSATuner.save_results`,
lines 447-462) -/

/-- Python `int()` applied to an exact rational: truncation toward zero
(the floats that `save_results` converts are exact halves, so the rational
model is exact). -/
def py_int (q : ℚ) : ℤ :=
  q.num.tdiv (q.den : ℤ)

/-- Embeds the `initial_params` field written by `SPSATuner.save_results`
(line 457): `{p.name: int(p.min_val + (p.max_val - p.min_val) / 2) for p in
DEFAULT_PARAMS}` — note it reads the module-level `DEFAULT_PARAMS`, not the
tuner's own parameter list. -/
def initial_params_field : List (String × ℤ) :=
  DEFAULT_PARAMS.map (fun p => (p.name, py_int (p.min_val + (p.max_val - p.min_val) / 2)))

/-- The construction-time value recorded for a named parameter in a given
parameter list (the session-start value of that parameter). -/
def start_value (params : List TunableParam) (n : String) : Option ℚ :=
  (params.find? (fun p => p.name == n)).map (fun p => p.value)

end Spsa

namespace Perft

/-- One whitespace token of a line of engine output, as seen by the scan of
`run_perft` (perft_test.py, lines 158-163): the literal token `Nodes:`, a
token that `int()` accepts (abstracted to its value), or any other token. -/
inductive PTok where
  | nodesTok : PTok
  | intTok : ℤ → PTok
  | otherTok : PTok
deriving DecidableEq, Repr

/-- Embeds the inner token scan of `run_perft` (lines 161-163) on one line:
find the first `Nodes:` token that has a following token; `some (some n)`
when that following token is the integer `n` (the function returns `n`),
`some none` when it is not an integer (`int()` raises, the `except` clause
returns -1), `none` when no `Nodes:` token with a successor exists (the
loop falls through to the next line). -/
def scan_line : List PTok → Option (Option ℤ)
  | [] => none
  | [_] => none
  | .nodesTok :: t :: _ =>
    some (match t with | .intTok n => some n | _ => none)
  | _ :: rest => scan_line rest

/-- Embeds the line loop of `run_perft` (lines 158-169): the first line
whose scan returns determines the result (`-1` via the exception handler
when `int()` failed); when every line falls through, `return -1`
(line 169). -/
def scan_lines : List (List PTok) → ℤ
  | [] => -1
  | l :: rest =>
    match scan_line l with
    | some (some n) => n
    | some none => -1
    | none => scan_lines rest

/-- Embeds the `timeout=300` argument of the `subprocess.run` call in
`run_perft` (line 152): the five-minute wall-clock bound in seconds. -/
def run_perft_timeout_seconds : ℕ := 300

/-- Outcome of the engine invocation in `run_perft`: a
`subprocess.TimeoutExpired`, any other exception (e.g. a launch failure),
or captured stdout as a list of tokenised lines. -/
inductive PerftOutcome where
  | timeout : PerftOutcome
  | exc : PerftOutcome
  | output : List (List PTok) → PerftOutcome
deriving DecidableEq, Repr

/-- Embeds `run_perft` (lines 140-176): scan the stdout for the node count;
`-1` on timeout, on any exception, or when no count is found. -/
def run_perft (o : PerftOutcome) : ℤ :=
  match o with
  | .timeout => -1
  | .exc => -1
  | .output lines => scan_lines lines

/-- A line contains a `Nodes:` token immediately followed by an integer
token. -/
def line_has_nodes_int : List PTok → Bool
  | [] => false
  | [_] => false
  | .nodesTok :: .intTok _ :: _ => true
  | _ :: rest => line_has_nodes_int rest

end Perft

namespace Spsa

/-- Helper: a clamp result always lies between the bounds when the bounds
are ordered. -/
theorem clamp_mem_of_le (p : TunableParam) (hle : p.min_val ≤ p.max_val) (v : ℚ) :
    p.min_val ≤ p.clamp v ∧ p.clamp v ≤ p.max_val := by
  unfold TunableParam.clamp
  exact ⟨le_max_left _ _, max_le hle (min_le_left _ _)⟩

/-- Helper: clamping a value already between the bounds returns it. -/
theorem clamp_of_mem (p : TunableParam) (h1 : p.min_val ≤ p.value)
    (h2 : p.value ≤ p.max_val) : p.clamp p.value = p.value := by
  unfold TunableParam.clamp
  rw [min_eq_right h2, max_eq_right h1]

/-- Helper: the per-parameter update with the neutral score pair leaves the
parameter untouched, as long as its value is within bounds. -/
theorem update_param_neutral (p : TunableParam) (ak ck : ℚ) (δ : ℤ)
    (h1 : p.min_val ≤ p.value) (h2 : p.value ≤ p.max_val) :
    update_param p ak ck δ (1/2) (1/2) = p := by
  unfold update_param
  by_cases hδ : δ = 0
  · simp [hδ]
  · have hstep : spsa_step ak ck p δ (1/2) (1/2) = 0 := by
      simp [spsa_step, spsa_gradient]
    simp only [hδ, ne_eq, not_false_iff, if_true, hstep, add_zero,
      clamp_of_mem p h1 h2]

/-- C1: when the score estimator returns the neutral pair `(0.5, 0.5)` and
every parameter satisfies `min ≤ value ≤ max` beforehand, the gradient and
the step computed for every parameter are exactly 0 and the whole update of
`SPSATuner.iterate` leaves the parameter list unchanged. -/
theorem neutral_update_noop (ps : List TunableParam) (ak ck : ℚ) (δs : List ℤ)
    (hlen : ps.length = δs.length)
    (hbounds : ∀ p ∈ ps, p.min_val ≤ p.value ∧ p.value ≤ p.max_val) :
    (∀ p ∈ ps, ∀ δ : ℤ,
        spsa_gradient ck p.c_end δ (1/2) (1/2) = 0 ∧
        spsa_step ak ck p δ (1/2) (1/2) = 0) ∧
    iterate_update ps ak ck δs (1/2) (1/2) = ps := by
  constructor
  · intro p _ δ
    constructor
    · simp [spsa_gradient]
    · simp [spsa_step, spsa_gradient]
  · induction ps generalizing δs with
    | nil => cases δs <;> rfl
    | cons p rest ih =>
      cases δs with
      | nil => exact absurd hlen (by simp)
      | cons δ δs' =>
        have hp := hbounds p (List.mem_cons_self _ _)
        have hrest : ∀ q ∈ rest, q.min_val ≤ q.value ∧ q.value ≤ q.max_val :=
          fun q hq => hbounds q (List.mem_cons_of_mem _ hq)
        have hlen' : rest.length = δs'.length := by
          simpa using hlen
        simp only [iterate_update, List.zipWith_cons_cons]
        rw [update_param_neutral p ak ck δ hp.1 hp.2]
        have := ih δs' hlen' hrest
        simpa [iterate_update] using this

/-- C1 witness: a concrete one-parameter instance of the no-op update. -/
theorem neutral_update_noop_witness :
    iterate_update [TunableParam.mk "PawnValueMG" 100 70 130 1 1] 1 1 [1] (1/2) (1/2)
      = [TunableParam.mk "PawnValueMG" 100 70 130 1 1] :=
  (neutral_update_noop [TunableParam.mk "PawnValueMG" 100 70 130 1 1] 1 1 [1]
    (by rfl) (by norm_num)).2

/-- Helper: the per-parameter update keeps the value within ordered bounds
whenever it was within them before. -/
theorem update_param_bounds (p : TunableParam) (hle : p.min_val ≤ p.max_val)
    (h1 : p.min_val ≤ p.value) (h2 : p.value ≤ p.max_val)
    (ak ck sp sm : ℚ) (δ : ℤ) :
    p.min_val ≤ (update_param p ak ck δ sp sm).value ∧
    (update_param p ak ck δ sp sm).value ≤ p.max_val := by
  unfold update_param
  by_cases hδ : δ = 0
  · simpa [hδ] using ⟨h1, h2⟩
  · simpa [hδ] using clamp_mem_of_le p hle _

/-- Helper: updating a parameter never changes its bounds. -/
theorem update_param_keeps_bounds (p : TunableParam) (ak ck sp sm : ℚ) (δ : ℤ) :
    (update_param p ak ck δ sp sm).min_val = p.min_val ∧
    (update_param p ak ck δ sp sm).max_val = p.max_val := by
  unfold update_param
  by_cases hδ : δ = 0 <;> simp [hδ]

/-- Helper: the whole update loop keeps every parameter within its own
bounds, given each parameter starts with ordered bounds and an in-range
value. -/
theorem iterate_update_bounds (ps : List TunableParam) (ak ck sp sm : ℚ)
    (δs : List ℤ)
    (hps : ∀ q ∈ ps, q.min_val ≤ q.max_val ∧ q.min_val ≤ q.value ∧ q.value ≤ q.max_val) :
    ∀ q ∈ iterate_update ps ak ck δs sp sm,
      q.min_val ≤ q.value ∧ q.value ≤ q.max_val := by
  induction ps generalizing δs with
  | nil =>
    intro q hq
    cases δs <;> simp [iterate_update] at hq
  | cons r rest ih =>
    intro q hq
    cases δs with
    | nil => simp [iterate_update] at hq
    | cons δ δs' =>
      simp only [iterate_update, List.zipWith_cons_cons, List.mem_cons] at hq
      rcases hq with hq | hq
      · subst hq
        have hr := hps r (List.mem_cons_self _ _)
        have hb := update_param_bounds r hr.1 hr.2.1 hr.2.2 ak ck sp sm δ
        have hkeep := update_param_keeps_bounds r ak ck sp sm δ
        rw [hkeep.1, hkeep.2]
        exact hb
      · exact ih δs' (fun q' hq' => hps q' (List.mem_cons_of_mem _ hq')) q
          (by simpa [iterate_update] using hq)

/-- C2: for a parameter with ordered bounds, every clamp result lies in
`[min, max]`; in particular both perturbed candidates of
`SPSATuner.iterate` and the post-update value do, so `min ≤ value ≤ max`
is preserved by every iteration of the update loop, given it holds
initially. -/
theorem clamp_invariant (p : TunableParam) (hle : p.min_val ≤ p.max_val) :
    (∀ v : ℚ, p.min_val ≤ p.clamp v ∧ p.clamp v ≤ p.max_val) ∧
    (∀ ck : ℚ, ∀ δ : ℤ,
        (p.min_val ≤ perturb_plus p ck δ ∧ perturb_plus p ck δ ≤ p.max_val) ∧
        (p.min_val ≤ perturb_minus p ck δ ∧ perturb_minus p ck δ ≤ p.max_val)) ∧
    (∀ ak ck sp sm : ℚ, ∀ δ : ℤ, p.min_val ≤ p.value → p.value ≤ p.max_val →
        p.min_val ≤ (update_param p ak ck δ sp sm).value ∧
        (update_param p ak ck δ sp sm).value ≤ p.max_val) ∧
    (∀ ps : List TunableParam, ∀ ak ck sp sm : ℚ, ∀ δs : List ℤ,
        (∀ q ∈ ps, q.min_val ≤ q.max_val ∧ q.min_val ≤ q.value ∧ q.value ≤ q.max_val) →
        ∀ q ∈ iterate_update ps ak ck δs sp sm,
          q.min_val ≤ q.value ∧ q.value ≤ q.max_val) := by
  refine ⟨fun v => clamp_mem_of_le p hle v, fun ck δ => ⟨?_, ?_⟩, ?_, ?_⟩
  · exact clamp_mem_of_le p hle _
  · exact clamp_mem_of_le p hle _
  · intro ak ck sp sm δ h1 h2
    exact update_param_bounds p hle h1 h2 ak ck sp sm δ
  · intro ps ak ck sp sm δs hps
    exact iterate_update_bounds ps ak ck sp sm δs hps

/-- C2 witness: bounds hold for a concrete clamp, both concrete candidates
and a concrete update. -/
theorem clamp_invariant_witness :
    ((TunableParam.mk "P" 100 70 130 1 1).min_val ≤
        (TunableParam.mk "P" 100 70 130 1 1).clamp 500 ∧
      (TunableParam.mk "P" 100 70 130 1 1).clamp 500 ≤
        (TunableParam.mk "P" 100 70 130 1 1).max_val) ∧
    ((TunableParam.mk "P" 100 70 130 1 1).min_val ≤
        (update_param (TunableParam.mk "P" 100 70 130 1 1) 1 1 1 (7/10) (3/10)).value ∧
      (update_param (TunableParam.mk "P" 100 70 130 1 1) 1 1 1 (7/10) (3/10)).value ≤
        (TunableParam.mk "P" 100 70 130 1 1).max_val) :=
  ⟨(clamp_invariant (TunableParam.mk "P" 100 70 130 1 1) (by norm_num)).1 500,
   (clamp_invariant (TunableParam.mk "P" 100 70 130 1 1) (by norm_num)).2.2.1
     1 1 (7/10) (3/10) 1 (by norm_num) (by norm_num)⟩

/-- C3: with a parsed result line and a positive game total, `_run_games`
returns `((winsPlus + 0.5*draws)/total, (winsMinus + 0.5*draws)/total)`,
which sum to 1; with a zero total, on timeout, or without a parseable
score line it returns exactly `(0.5, 0.5)` (every failure path of the
function ends in a `return`, never in an uncaught exception). -/
theorem run_games_score_spec :
    (∀ wp wm d : ℕ, 0 < wp + wm + d →
        run_games (.output (some (wp, wm, d))) =
          (((wp : ℚ) + d * (1/2)) / ((wp : ℚ) + wm + d),
           ((wm : ℚ) + d * (1/2)) / ((wp : ℚ) + wm + d)) ∧
        (run_games (.output (some (wp, wm, d)))).1 +
          (run_games (.output (some (wp, wm, d)))).2 = 1) ∧
    (∀ wp wm d : ℕ, wp + wm + d = 0 →
        run_games (.output (some (wp, wm, d))) = (1/2, 1/2)) ∧
    run_games (.output none) = (1/2, 1/2) ∧
    run_games .timeout = (1/2, 1/2) ∧
    run_games .exc = (1/2, 1/2) := by
  refine ⟨?_, ?_, rfl, rfl, rfl⟩
  · intro wp wm d h
    have h0 : wp + wm + d ≠ 0 := Nat.pos_iff_ne_zero.mp h
    have hq : ((wp : ℚ) + wm + d) ≠ 0 := by
      have := Nat.cast_pos (α := ℚ) |>.mpr h
      push_cast at this
      linarith
    have hrun : run_games (.output (some (wp, wm, d))) =
        (((wp : ℚ) + d * (1/2)) / ((wp + wm + d : ℕ) : ℚ),
         ((wm : ℚ) + d * (1/2)) / ((wp + wm + d : ℕ) : ℚ)) := by
      simp [run_games, h0]
    constructor
    · rw [hrun]
      push_cast
      rfl
    · rw [hrun]
      field_simp
      ring
  · intro wp wm d h
    simp [run_games, h]

/-- C3 witness: a concrete parsed result (3 wins for plus, 1 for minus,
2 draws out of 6 games). -/
theorem run_games_score_spec_witness :
    run_games (.output (some (3, 1, 2))) =
      (((3 : ℚ) + 2 * (1/2)) / ((3 : ℚ) + 1 + 2),
       ((1 : ℚ) + 2 * (1/2)) / ((3 : ℚ) + 1 + 2)) ∧
    run_games (.output (some (0, 0, 0))) = (1/2, 1/2) :=
  ⟨(run_games_score_spec.1 3 1 2 (by norm_num)).1,
   run_games_score_spec.2.1 0 0 0 rfl⟩

/-- Helper: the logistic transform of a zero average difference is exactly
one half. -/
theorem logistic_score_zero : logistic_score 0 = 1/2 := by
  unfold logistic_score
  rw [neg_zero, zero_div, Real.rpow_zero]
  norm_num

/-- Helper: both components of `_run_games_simple` come from the one
`score_plus` value, the second being `1 - score_plus` (line 348). -/
theorem run_games_simple_eq (qs : List (QueryOutcome × QueryOutcome)) :
    run_games_simple qs =
      (logistic_score ((avg_diff qs : ℚ) : ℝ),
       1 - logistic_score ((avg_diff qs : ℚ) : ℝ)) := rfl

/-- Helper: a zero average difference makes `_run_games_simple` return
exactly the neutral pair. -/
theorem run_games_simple_of_avg_zero (qs : List (QueryOutcome × QueryOutcome))
    (h : avg_diff qs = 0) : run_games_simple qs = (1/2, 1/2) := by
  rw [run_games_simple_eq, h]
  rw [show (((0 : ℚ) : ℝ)) = 0 from Rat.cast_zero, logistic_score_zero]
  norm_num

/-- C4: the evaluation-based estimator maps a nonzero mate score of sign `s`
to `s * 10000`, averages the per-position signed evaluation difference over
the number of sampled positions, and returns
`score_plus = 1 / (1 + 10^(-avgDiff/100))` with
`score_minus = 1 - score_plus`; hence the two scores always sum to 1 and a
zero average difference yields exactly `(0.5, 0.5)`. -/
theorem run_games_simple_spec :
    (∀ m : ℤ, m ≠ 0 → mate_eval m = m.sign * 10000) ∧
    (∀ qs : List (QueryOutcome × QueryOutcome), qs ≠ [] →
        avg_diff qs = (total_diff qs : ℚ) / qs.length) ∧
    (∀ qs : List (QueryOutcome × QueryOutcome),
        (run_games_simple qs).1 =
          1 / (1 + (10 : ℝ) ^ (-((avg_diff qs : ℚ) : ℝ) / 100)) ∧
        (run_games_simple qs).2 = 1 - (run_games_simple qs).1) ∧
    (∀ qs : List (QueryOutcome × QueryOutcome),
        (run_games_simple qs).1 + (run_games_simple qs).2 = 1) ∧
    (∀ qs : List (QueryOutcome × QueryOutcome), avg_diff qs = 0 →
        run_games_simple qs = (1/2, 1/2)) := by
  refine ⟨?_, ?_, fun qs => ⟨rfl, rfl⟩,
    fun qs => by rw [run_games_simple_eq]; ring, run_games_simple_of_avg_zero⟩
  · intro m hm
    rcases lt_or_gt_of_ne hm with h | h
    · rw [Int.sign_eq_neg_one_of_neg h]
      simp [mate_eval, not_lt.mpr h.le, h.not_lt]
    · rw [Int.sign_eq_one_of_pos h]
      simp [mate_eval, h]
  · intro qs hqs
    unfold avg_diff
    have hlen : 1 ≤ qs.length := List.length_pos.mpr hqs
    rw [max_eq_right hlen]

/-- C4 witness: the mate mapping at `-3`, the averaging at a concrete
two-position sample, and the neutral result on the empty sample. -/
theorem run_games_simple_spec_witness :
    mate_eval (-3) = Int.sign (-3) * 10000 ∧
    avg_diff [(.output [.cp 30], .output [.cp 10]), (.exc, .exc)] =
      (total_diff [(.output [.cp 30], .output [.cp 10]), (.exc, .exc)] : ℚ) /
        ([((.output [.cp 30] : QueryOutcome), (.output [.cp 10] : QueryOutcome)),
          (.exc, .exc)] : List (QueryOutcome × QueryOutcome)).length ∧
    run_games_simple [] = (1/2, 1/2) :=
  ⟨run_games_simple_spec.1 (-3) (by decide),
   run_games_simple_spec.2.1 [(.output [.cp 30], .output [.cp 10]), (.exc, .exc)]
     (by simp),
   run_games_simple_spec.2.2.2.2 [] (by simp [avg_diff, total_diff])⟩

/-- Helper: the score scan returns 0 on a list of score-free lines. -/
theorem scan_eval_lines_all_other (lines : List EvalLine)
    (h : ∀ l ∈ lines, l = .other) : scan_eval_lines lines = 0 := by
  induction lines with
  | nil => rfl
  | cons l rest ih =>
    have hl : l = .other := h l (List.mem_cons_self _ _)
    subst hl
    exact ih (fun l hl => h l (List.mem_cons_of_mem _ hl))

/-- Helper: `get_eval` returns 0 on every failed query outcome. -/
theorem get_eval_of_failed (o : QueryOutcome) (h : query_failed o = true) :
    get_eval o = 0 := by
  cases o with
  | timeout => rfl
  | exc => rfl
  | output lines =>
    have hall : ∀ l ∈ lines, l = .other := by
      intro l hl
      have := (List.all_eq_true.mp h) l hl
      cases l <;> simp_all
    refine scan_eval_lines_all_other lines.reverse ?_
    intro l hl
    exact hall l (List.mem_reverse.mp hl)

/-- C9: in the evaluation-based strategy, a query that times out, errors,
or produces no parseable score line contributes an evaluation of exactly 0;
the position still counts in the average (it increments the length that
`max(1, positions_tested)` divides by, while adding 0 to `total_diff`); a
failure on only one side makes the position contribute the negation of the
surviving side's evaluation; and when every query fails the strategy
returns exactly `(0.5, 0.5)`. -/
theorem eval_failure_spec :
    get_eval .timeout = 0 ∧
    get_eval .exc = 0 ∧
    (∀ lines : List EvalLine, (∀ l ∈ lines, l = .other) →
        get_eval (.output lines) = 0) ∧
    (∀ q : QueryOutcome × QueryOutcome, query_failed q.1 = true →
        pos_diff q = -(get_eval q.2)) ∧
    (∀ q : QueryOutcome × QueryOutcome, query_failed q.2 = true →
        pos_diff q = get_eval q.1) ∧
    (∀ qs : List (QueryOutcome × QueryOutcome),
        ∀ q : QueryOutcome × QueryOutcome,
        query_failed q.1 = true → query_failed q.2 = true →
        total_diff (qs ++ [q]) = total_diff qs ∧
        (qs ++ [q]).length = qs.length + 1) ∧
    (∀ qs : List (QueryOutcome × QueryOutcome),
        (∀ q ∈ qs, query_failed q.1 = true ∧ query_failed q.2 = true) →
        run_games_simple qs = (1/2, 1/2)) := by
  refine ⟨rfl, rfl, ?_, ?_, ?_, ?_, ?_⟩
  · intro lines h
    exact get_eval_of_failed (.output lines) (by
      simp only [query_failed, List.all_eq_true]
      intro l hl
      rw [h l hl])
  · intro q h
    unfold pos_diff
    rw [get_eval_of_failed q.1 h]
    ring
  · intro q h
    unfold pos_diff
    rw [get_eval_of_failed q.2 h]
    ring
  · intro qs q h1 h2
    constructor
    · unfold total_diff
      rw [List.map_append, List.sum_append]
      simp [pos_diff, get_eval_of_failed q.1 h1, get_eval_of_failed q.2 h2]
    · simp
  · intro qs h
    have htot : total_diff qs = 0 := by
      unfold total_diff
      refine List.sum_eq_zero ?_
      intro x hx
      rcases List.mem_map.mp hx with ⟨q, hq, rfl⟩
      have := h q hq
      simp [pos_diff, get_eval_of_failed q.1 this.1, get_eval_of_failed q.2 this.2]
    have havg : avg_diff qs = 0 := by
      unfold avg_diff
      rw [htot]
      simp
    exact run_games_simple_of_avg_zero qs havg

/-- C9 witness: concrete failed queries (a timeout against a fully
unparseable output, and an all-failed two-position sample). -/
theorem eval_failure_spec_witness :
    pos_diff ((.timeout : QueryOutcome), (.output [.cp 25] : QueryOutcome)) =
      -(get_eval (.output [.cp 25])) ∧
    run_games_simple [(.timeout, .output [.other]), (.exc, .timeout)] = (1/2, 1/2) :=
  ⟨eval_failure_spec.2.2.2.1 (.timeout, .output [.cp 25]) rfl,
   eval_failure_spec.2.2.2.2.2.2 [(.timeout, .output [.other]), (.exc, .timeout)]
     (by decide)⟩

/-- C5 counterexample: the wall-clock bound that `_run_games` passes to
`subprocess.run` is 3600 seconds, not the 300 seconds the claim states. -/
theorem run_games_timeout_not_300s :
    run_games_timeout_seconds = 3600 ∧ run_games_timeout_seconds ≠ 300 := by
  decide

/-- C5 amended: the match-based estimator bounds the match-runner
invocation with a hard wall-clock timeout of 3600 seconds per iteration
batch, and when that timeout expires it returns the neutral pair
`(0.5, 0.5)` instead of aborting the session. -/
theorem run_games_timeout_spec :
    run_games_timeout_seconds = 3600 ∧
    run_games MatchOutcome.timeout = (1/2, 1/2) :=
  ⟨rfl, rfl⟩

/-- Helper: the `initial_params` field of the session artifact, fully
evaluated: each `DEFAULT_PARAMS` entry mapped to the truncated midpoint of
its bounds. -/
theorem initial_params_field_eval :
    initial_params_field =
      [("PawnValueMG", 100), ("KnightValueMG", 320), ("BishopValueMG", 330),
       ("RookValueMG", 500), ("QueenValueMG", 950), ("PawnValueEG", 130),
       ("KnightValueEG", 340), ("BishopValueEG", 350), ("RookValueEG", 550),
       ("QueenValueEG", 1000), ("BishopPairBonusMG", 30),
       ("RookOpenFileBonusMG", 25), ("RookSemiOpenFileBonusMG", 15),
       ("RookOnSeventhBonusMG", 25), ("KnightOutpostBonusMG", 25),
       ("BishopPairBonusEG", 50), ("RookOpenFileBonusEG", 20),
       ("RookSemiOpenFileBonusEG", 10), ("RookOnSeventhBonusEG", 30),
       ("KnightOutpostBonusEG", 20), ("IsolatedPawnPenaltyMG", -40),
       ("DoubledPawnPenaltyMG", -20), ("BackwardPawnPenaltyMG", -15),
       ("ConnectedPawnBonusMG", 10), ("PhalanxBonusMG", 12),
       ("IsolatedPawnPenaltyEG", -25), ("DoubledPawnPenaltyEG", -25),
       ("BackwardPawnPenaltyEG", -17), ("ConnectedPawnBonusEG", 7),
       ("PhalanxBonusEG", 10), ("KingSafetyWeight", 100)] := by
  norm_num [initial_params_field, DEFAULT_PARAMS, mkParam, py_int]
  norm_num [Int.tdiv]

/-- C6 counterexample: `save_results` records 15 under
`RookSemiOpenFileBonusMG` in `initial_params` (the truncated midpoint of
the bounds 0 and 30), although that parameter's value at session start in
the list the tuner is constructed with (`DEFAULT_PARAMS`) is 11. -/
theorem initial_params_not_start_value :
    initial_params_field.lookup "RookSemiOpenFileBonusMG" = some 15 ∧
    start_value DEFAULT_PARAMS "RookSemiOpenFileBonusMG" = some 11 ∧
    (15 : ℤ) ≠ (11 : ℤ) := by
  refine ⟨?_, ?_, by decide⟩
  · rw [initial_params_field_eval]
    rfl
  · rfl

/-- C6 amended: the `initial_params` field of the persisted session
artifact maps each parameter of the module-level `DEFAULT_PARAMS` list —
not the parameter list the tuner was constructed with — to the integer
truncation of the midpoint `min + (max - min)/2` of its bounds, not to the
parameter's value at session start; fully evaluated it is the explicit
31-entry table below, which disagrees with the session-start value on 16
of the 31 parameters (e.g. `PhalanxBonusMG`: recorded 12, start value
10). -/
theorem initial_params_field_spec :
    initial_params_field =
      [("PawnValueMG", 100), ("KnightValueMG", 320), ("BishopValueMG", 330),
       ("RookValueMG", 500), ("QueenValueMG", 950), ("PawnValueEG", 130),
       ("KnightValueEG", 340), ("BishopValueEG", 350), ("RookValueEG", 550),
       ("QueenValueEG", 1000), ("BishopPairBonusMG", 30),
       ("RookOpenFileBonusMG", 25), ("RookSemiOpenFileBonusMG", 15),
       ("RookOnSeventhBonusMG", 25), ("KnightOutpostBonusMG", 25),
       ("BishopPairBonusEG", 50), ("RookOpenFileBonusEG", 20),
       ("RookSemiOpenFileBonusEG", 10), ("RookOnSeventhBonusEG", 30),
       ("KnightOutpostBonusEG", 20), ("IsolatedPawnPenaltyMG", -40),
       ("DoubledPawnPenaltyMG", -20), ("BackwardPawnPenaltyMG", -15),
       ("ConnectedPawnBonusMG", 10), ("PhalanxBonusMG", 12),
       ("IsolatedPawnPenaltyEG", -25), ("DoubledPawnPenaltyEG", -25),
       ("BackwardPawnPenaltyEG", -17), ("ConnectedPawnBonusEG", 7),
       ("PhalanxBonusEG", 10), ("KingSafetyWeight", 100)] ∧
    initial_params_field.lookup "PhalanxBonusMG" = some 12 ∧
    start_value DEFAULT_PARAMS "PhalanxBonusMG" = some 10 := by
  refine ⟨initial_params_field_eval, ?_, rfl⟩
  rw [initial_params_field_eval]
  rfl

/-- C7: best tracking starts at `best_score = 0.5`; after an iteration the
record (`best_score`, `best_iteration`, `best_params`) is replaced exactly
when the iteration's `score_plus` is strictly greater than the current
`best_score` (ties keep the earlier record); over the plus-score sequence
`[0.52, 0.61, 0.58, 0.70]` the final `best_score` is `0.70` at
`best_iteration = 4`. -/
theorem best_tracking_spec :
    (∀ params : List TunableParam,
        (init_best params).best_score = 1/2 ∧
        (init_best params).best_iteration = 0) ∧
    (∀ s : BestState, ∀ k : ℕ, ∀ sp : ℚ, ∀ pm : List (String × ℚ),
        (sp > s.best_score → update_best s k sp pm =
          { best_score := sp, best_iteration := k, best_params := pm }) ∧
        (¬ sp > s.best_score → update_best s k sp pm = s)) ∧
    ((run_best DEFAULT_PARAMS
        [(52/100, []), (61/100, []), (58/100, []), (70/100, [])]).best_score = 7/10 ∧
     (run_best DEFAULT_PARAMS
        [(52/100, []), (61/100, []), (58/100, []), (70/100, [])]).best_iteration = 4) := by
  refine ⟨fun params => ⟨rfl, rfl⟩, fun s k sp pm => ⟨?_, ?_⟩, ?_, ?_⟩
  · intro h
    simp [update_best, h]
  · intro h
    simp [update_best, h]
  · norm_num [run_best, init_best, update_best, DEFAULT_PARAMS, mkParam]
  · norm_num [run_best, init_best, update_best, DEFAULT_PARAMS, mkParam]

/-- C7 witness: a concrete strict improvement replaces the record and a
concrete tie keeps it. -/
theorem best_tracking_spec_witness :
    update_best (BestState.mk (1/2) 0 []) 1 (61/100) [("P", 3)] =
      BestState.mk (61/100) 1 [("P", 3)] ∧
    update_best (BestState.mk (61/100) 1 []) 2 (61/100) [("P", 4)] =
      BestState.mk (61/100) 1 [] :=
  ⟨(best_tracking_spec.2.1 (BestState.mk (1/2) 0 []) 1 (61/100) [("P", 3)]).1
     (by norm_num),
   (best_tracking_spec.2.1 (BestState.mk (61/100) 1 []) 2 (61/100) [("P", 4)]).2
     (by norm_num)⟩

/-- C8: with `A = 10`, `alpha = 0.602`, `gamma = 0.101`, the coefficient
schedule is strictly positive and, for every `k ≥ 1`, strictly smaller
than its value at `k - 1`, for both `a_k` and `c_k`. -/
theorem spsa_coefficients_pos_decreasing (k : ℕ) (hk : 1 ≤ k) :
    0 < spsa_ak k ∧ 0 < spsa_ck k ∧
    spsa_ak k < spsa_ak (k - 1) ∧ spsa_ck k < spsa_ck (k - 1) := by
  have hcast : ((k - 1 : ℕ) : ℝ) = (k : ℝ) - 1 := by
    push_cast [hk]
    ring
  have hk1 : (1 : ℝ) ≤ (k : ℝ) := by exact_mod_cast hk
  have halpha : (0 : ℝ) < spsa_alpha := by norm_num [spsa_alpha]
  have hgamma : (0 : ℝ) < spsa_gamma := by norm_num [spsa_gamma]
  have hbase_a : (0 : ℝ) < (spsa_A : ℝ) + k + 1 := by positivity
  have hbase_a' : (0 : ℝ) < (spsa_A : ℝ) + (k - 1 : ℕ) + 1 := by
    rw [hcast]; norm_num [spsa_A]; linarith
  have hbase_c : (0 : ℝ) < (k : ℝ) + 1 := by positivity
  have hbase_c' : (0 : ℝ) < ((k - 1 : ℕ) : ℝ) + 1 := by
    rw [hcast]; linarith
  refine ⟨?_, ?_, ?_, ?_⟩
  · exact one_div_pos.mpr (Real.rpow_pos_of_pos hbase_a _)
  · exact one_div_pos.mpr (Real.rpow_pos_of_pos hbase_c _)
  · unfold spsa_ak
    refine one_div_lt_one_div_of_lt (Real.rpow_pos_of_pos hbase_a' _) ?_
    refine Real.rpow_lt_rpow hbase_a'.le ?_ halpha
    rw [hcast]
    linarith
  · unfold spsa_ck
    refine one_div_lt_one_div_of_lt (Real.rpow_pos_of_pos hbase_c' _) ?_
    refine Real.rpow_lt_rpow hbase_c'.le ?_ hgamma
    rw [hcast]
    linarith

/-- C8 witness: the schedule at `k = 1` is positive and strictly below its
value at `k = 0`. -/
theorem spsa_coefficients_pos_decreasing_witness :
    0 < spsa_ak 1 ∧ 0 < spsa_ck 1 ∧
    spsa_ak 1 < spsa_ak 0 ∧ spsa_ck 1 < spsa_ck 0 :=
  spsa_coefficients_pos_decreasing 1 (by decide)

end Spsa

namespace Perft

/-- Helper: the token scan of a line with no `Nodes:` token falls through
to the next line. -/
theorem scan_line_of_not_mem (l : List PTok) (h : PTok.nodesTok ∉ l) :
    scan_line l = none := by
  induction l with
  | nil => rfl
  | cons t rest ih =>
    cases rest with
    | nil => cases t <;> rfl
    | cons t' rest' =>
      have ht : t ≠ .nodesTok := fun e => h (e ▸ List.mem_cons_self _ _)
      have hrest : PTok.nodesTok ∉ t' :: rest' :=
        fun hm => h (List.mem_cons_of_mem _ hm)
      cases t with
      | nodesTok => exact absurd rfl ht
      | intTok m => simpa [scan_line] using ih hrest
      | otherTok => simpa [scan_line] using ih hrest

/-- Helper: when the first `Nodes:` token of a line is immediately followed
by the integer token `n`, the line scan returns `n`. -/
theorem scan_line_first_nodes (l₁ : List PTok) (n : ℤ) (rest : List PTok)
    (h : PTok.nodesTok ∉ l₁) :
    scan_line (l₁ ++ .nodesTok :: .intTok n :: rest) = some (some n) := by
  induction l₁ with
  | nil => rfl
  | cons t l₁' ih =>
    have ht : t ≠ .nodesTok := fun e => h (e ▸ List.mem_cons_self _ _)
    have hl₁' : PTok.nodesTok ∉ l₁' := fun hm => h (List.mem_cons_of_mem _ hm)
    have hih := ih hl₁'
    cases hl : l₁' ++ PTok.nodesTok :: PTok.intTok n :: rest with
    | nil => exact absurd hl (by simp)
    | cons u us =>
      rw [List.cons_append, hl]
      rw [hl] at hih
      cases t with
      | nodesTok => exact absurd rfl ht
      | intTok m => simpa [scan_line] using hih
      | otherTok => simpa [scan_line] using hih

/-- Helper: a line without a `Nodes:`-integer pair either falls through or
aborts the whole call with `-1` (a failed `int()` conversion). -/
theorem scan_line_of_no_pair (l : List PTok) (h : line_has_nodes_int l = false) :
    scan_line l = none ∨ scan_line l = some none := by
  induction l with
  | nil => exact Or.inl rfl
  | cons t rest ih =>
    cases rest with
    | nil => cases t <;> exact Or.inl rfl
    | cons t' rest' =>
      have hrest : line_has_nodes_int (t' :: rest') = false := by
        cases t with
        | nodesTok =>
          cases t' with
          | intTok m => simp [line_has_nodes_int] at h
          | nodesTok => simpa [line_has_nodes_int] using h
          | otherTok => simpa [line_has_nodes_int] using h
        | intTok m => simpa [line_has_nodes_int] using h
        | otherTok => simpa [line_has_nodes_int] using h
      cases t with
      | nodesTok =>
        cases t' with
        | intTok m => simp [line_has_nodes_int] at h
        | nodesTok => exact Or.inr rfl
        | otherTok => exact Or.inr rfl
      | intTok m => simpa [scan_line] using ih hrest
      | otherTok => simpa [scan_line] using ih hrest

/-- C10: `run_perft` never raises — every failure path returns `-1` — and:
it returns `-1` on timeout and on every other exception (e.g. a failed
launch); it returns `-1` when no line of the output contains a `Nodes:`
token immediately followed by an integer; and when the first `Nodes:`
token of the output that the scan reaches is immediately followed by the
integer `n` (no earlier line or earlier token of its line carrying a
`Nodes:` token), it returns `n`. -/
theorem run_perft_spec :
    run_perft .timeout = -1 ∧
    run_perft .exc = -1 ∧
    (∀ lines : List (List PTok),
        (∀ l ∈ lines, line_has_nodes_int l = false) →
        run_perft (.output lines) = -1) ∧
    (∀ pre : List (List PTok), ∀ l₁ : List PTok, ∀ n : ℤ,
        ∀ rest : List PTok, ∀ post : List (List PTok),
        (∀ l ∈ pre, PTok.nodesTok ∉ l) → PTok.nodesTok ∉ l₁ →
        run_perft (.output (pre ++ (l₁ ++ .nodesTok :: .intTok n :: rest) :: post)) = n) := by
  refine ⟨rfl, rfl, ?_, ?_⟩
  · intro lines h
    show scan_lines lines = -1
    induction lines with
    | nil => rfl
    | cons l rest ih =>
      have hl := h l (List.mem_cons_self _ _)
      have hrest := ih (fun l' hl' => h l' (List.mem_cons_of_mem _ hl'))
      rcases scan_line_of_no_pair l hl with he | he <;>
        simp [scan_lines, he, hrest]
  · intro pre l₁ n rest post hpre hl₁
    show scan_lines (pre ++ (l₁ ++ .nodesTok :: .intTok n :: rest) :: post) = n
    induction pre with
    | nil =>
      simp [scan_lines, scan_line_first_nodes l₁ n rest hl₁]
    | cons p pre' ih =>
      have hp := hpre p (List.mem_cons_self _ _)
      have hpre' := ih (fun l' hl' => hpre l' (List.mem_cons_of_mem _ hl'))
      simpa [scan_lines, scan_line_of_not_mem p hp] using hpre'

/-- C10 witness: a concrete output whose second line carries the node
count, and a concrete output with no count at all. -/
theorem run_perft_spec_witness :
    run_perft (.output [[.otherTok], [.nodesTok, .intTok 42]]) = 42 ∧
    run_perft (.output [[.otherTok, .otherTok]]) = -1 ∧
    run_perft .timeout = -1 :=
  ⟨run_perft_spec.2.2.2 [[.otherTok]] [] 42 [] [] (by decide) (by decide),
   run_perft_spec.2.2.1 [[.otherTok, .otherTok]] (by decide),
   run_perft_spec.1⟩

end Perft

